import Mathlib

/-!
Shallow embedding of the private-blockchain engine (`src/blockchain.js`)
and proofs of the spec's claims about it.

The repository's `block.js` (the external Block entity: constructor, body
encoding/decoding, self-check) is not part of the source under `src/`, so
those capabilities enter the embedding as abstract parameters or as
definitions modelled from the spec, each marked as such in its doc comment.

JavaScript-level conventions used throughout:
  * `null`/absent string fields become `Option String` (`none` = null).
  * A rejected promise becomes `Except String` carrying the `Error` message.
  * `parseInt` returning `NaN` becomes `Option Int` with `none` = NaN, and
    a comparison against NaN is `false`, as in JavaScript.
  * `new Date().getTime()` (the millisecond clock) is an explicit `nowMs`
    parameter threaded into every operation that reads the clock.
-/

deriving instance DecidableEq for Except

/-- Decimal digit `d` (0–9) rendered as its ASCII character. -/
def digitChar (d : Nat) : Char := Char.ofNat (48 + d)

/-- Little-endian decimal digits of `n`, fuel-driven so that the recursion is
structural and kernel-evaluable.  Models the digit extraction underlying the
JavaScript `Number.prototype.toString` primitive (base 10). -/
def revDigitsAux : Nat → Nat → List Char
  | 0, _ => []
  | fuel + 1, n =>
      if n < 10 then [digitChar n]
      else digitChar (n % 10) :: revDigitsAux fuel (n / 10)

/-- Little-endian decimal digits of `n` (adequate fuel supplied). -/
def revDigits (n : Nat) : List Char := revDigitsAux (n + 1) n

/-- Embedding of the JavaScript `Number.prototype.toString()` primitive on a
non-negative integer: its canonical base-10 rendering. -/
def jsNumToString (n : Nat) : String := String.mk (revDigits n).reverse

/-- Embedding of the JavaScript `String.prototype.slice(0, -3)`: all but the
last three characters (empty when the string has at most three). -/
def jsSliceDropLast3 (s : String) : String :=
  String.mk (s.data.take (s.data.length - 3))

/-- The expression `new Date().getTime().toString().slice(0, -3)`: the
whole-second timestamp string the code stores and parses (lines 65, 102, 129). -/
def jsSecondsString (nowMs : Nat) : String := jsSliceDropLast3 (jsNumToString nowMs)

/-- Splitter for the JavaScript `String.prototype.split(sep)` with a
one-character separator, accumulating the current field in reverse. -/
def splitCharAux (sep : Char) : List Char → List Char → List String
  | [], acc => [String.mk acc.reverse]
  | c :: cs, acc =>
      if c = sep then String.mk acc.reverse :: splitCharAux sep cs []
      else splitCharAux sep cs (c :: acc)

/-- Embedding of `message.split(':')` (JavaScript split with the one-character
separator `:`): `""` maps to `[""]`, separators delimit possibly empty
fields. -/
def jsSplitColon (s : String) : List String := splitCharAux ':' s.data []

/-- Value of a decimal digit character. -/
def digitVal (c : Char) : Nat := c.toNat - 48

/-- Accumulating decimal value of a digit list (most significant first). -/
def decimalValAux : List Char → Nat → Nat
  | [], acc => acc
  | c :: cs, acc => decimalValAux cs (acc * 10 + digitVal c)

/-- Longest leading run of decimal digits, as a number; `none` when there is
no leading digit (the `NaN` outcome of `parseInt`). -/
def jsParseDigits (cs : List Char) : Option Nat :=
  let ds := cs.takeWhile Char.isDigit
  if ds.isEmpty then none else some (decimalValAux ds 0)

/-- Embedding of the JavaScript `parseInt` on a string (base 10, as used by
the code on timestamp fields): skip leading whitespace, an optional sign,
then the longest digit prefix; `none` models `NaN`. -/
def jsParseInt (s : String) : Option Int :=
  match s.data.dropWhile Char.isWhitespace with
  | '-' :: rest => (jsParseDigits rest).map (fun n => -(n : Int))
  | '+' :: rest => (jsParseDigits rest).map (fun n => (n : Int))
  | rest => (jsParseDigits rest).map (fun n => (n : Int))

/-- The `parseInt` primitive applied to an indexing result that may be `undefined`
(`message.split(':')[1]` when there is no second field): `parseInt` of
`undefined` is `NaN`. -/
def jsParseIntOpt : Option String → Option Int
  | none => none
  | some s => jsParseInt s

/-- The JavaScript comparison `(a - b) >= c` on possibly-NaN operands: any
comparison involving `NaN` is `false`. -/
def jsGeNaN : Option Int → Option Int → Int → Bool
  | some a, some b, c => decide (c ≤ a - b)
  | _, _, _ => false

/-- A JavaScript runtime value restricted to the shapes line 65 can produce:
a number or a string.  Used to record the dynamic type of the stored `time`
field. -/
inductive JsValue where
  | num (n : Int)
  | str (s : String)
deriving DecidableEq

/-- Whether a `JsValue` is a number. -/
def JsValue.isNum : JsValue → Bool
  | .num _ => true
  | .str _ => false

/-- The value assigned by line 65,
`block.time = new Date().getTime().toString().slice(0,-3)`: a JavaScript
string (the result of `toString().slice` is a string, never a number). -/
def storedTimeJsValue (nowMs : Nat) : JsValue := .str (jsSecondsString nowMs)

/-- A block as stored in `this.chain`: the fields `_addBlock` assigns
(lines 62–71).  `previousBlockHash = none` models the `null` the external
Block constructor initialises it to and that the Genesis Block keeps. -/
structure Block where
  height : Nat
  time : String
  previousBlockHash : Option String
  body : String
  hash : String
deriving DecidableEq

instance : Inhabited Block := ⟨⟨0, "", none, "", ""⟩⟩

/-- Decoded block body as the spec's ownership record: `getBData()` yields
an object with `owner` and `star` fields. -/
structure BData where
  owner : String
  star : String
deriving DecidableEq

/-- The chain store's state: the `this.chain` array and the `this.height`
field (`-1` before initialization, hence `Int`). -/
structure Blockchain where
  chain : List Block
  height : Int
deriving DecidableEq

/-- The constructor's initial state (lines 26–27): empty chain, height -1. -/
def newBlockchain : Blockchain := ⟨[], -1⟩

/-- Resolution value of `validateChain`: the string
`"Blockchain is valid"` or the object
`\x7b"Block errors": errorLog.length, "Blocks": errorLog\x7d`. -/
inductive ValidationReport where
  | valid
  | invalid (blockErrors : Nat) (blocks : List Nat)
deriving DecidableEq

/-- Embedding of `validateChain` (lines 220–247), parametrised by the
external Block self-check capability `selfCheck` (`block.validate()`,
defined in the absent `block.js`).  The loop runs `i` from `0` to
`chain.length - 2`, pushes `i` once when the self-check of `block[i]` fails and
once more when `block[i].hash` differs from `block[i+1].previousBlockHash`
(a `null` previous hash never equals a hash string), then reports. -/
def validateChain (selfCheck : Block → Bool) (chain : List Block) : ValidationReport :=
  let errorLog := (List.range (chain.length - 1)).foldl
    (fun log i =>
      let log1 := if selfCheck (chain.getD i default) then log else log ++ [i]
      if some ((chain.getD i default).hash) = (chain.getD (i + 1) default).previousBlockHash
        then log1 else log1 ++ [i])
    []
  if errorLog.length > 0 then .invalid errorLog.length errorLog else .valid

/-- The block `_addBlock` constructs before pushing (lines 62–71): height
from the pre-push length, time from the clock, previous hash from the last
block when the chain is non-empty, and the content hash over exactly those
fields and the body.  `hashFn` stands for
`SHA256(JSON.stringify(block)).toString()`; per the spec the serialized
draft carries only `(height, time, previousBlockHash, body)` — the `hash`
field does not yet exist — so `hashFn` is a function of those four fields
(the Block constructor lives in the absent `block.js`; modelled from the
spec on that point). -/
def mkBlock (hashFn : Nat → String → Option String → String → String)
    (nowMs : Nat) (st : Blockchain) (body : String) : Block :=
  let height := st.chain.length
  let time := jsSecondsString nowMs
  let prev : Option String :=
    if st.chain.length > 0
      then some ((st.chain.getD (st.chain.length - 1) default).hash)
      else none
  { height := height, time := time, previousBlockHash := prev, body := body,
    hash := hashFn height time prev body }

/-- Embedding of `_addBlock` (lines 58–89): construct the block, push it,
set `this.height` to the new `chain.length - 1`, then run `validateChain`
over the extended chain; resolve with the block when the report is the
string `"Blockchain is valid"`, otherwise reject with
`Error("Blockchain is not valid!")`.  Either way the push has already
happened: the returned state keeps the block. -/
def _addBlock (hashFn : Nat → String → Option String → String → String)
    (selfCheck : Block → Bool) (nowMs : Nat) (st : Blockchain) (body : String) :
    Blockchain × Except String Block :=
  let b := mkBlock hashFn nowMs st body
  let chain2 := st.chain ++ [b]
  let st2 : Blockchain := ⟨chain2, (chain2.length : Int) - 1⟩
  match validateChain selfCheck chain2 with
  | .valid => (st2, .ok b)
  | .invalid _ _ => (st2, .error "Blockchain is not valid!")

/-- Modelled from the spec: the body payload the absent Block constructor
encodes for the genesis marker `\x7bdata: "Genesis Block"\x7d`; its exact
encoding never matters to any claim. -/
def genesisBody : String := "Genesis Block"

/-- Embedding of `initializeChain` (lines 36–41): append the Genesis Block
only when `this.height === -1`. -/
def initializeChain (hashFn : Nat → String → Option String → String → String)
    (selfCheck : Block → Bool) (nowMs : Nat) (st : Blockchain) :
    Blockchain × Option (Except String Block) :=
  if st.height = -1 then
    let r := _addBlock hashFn selfCheck nowMs st genesisBody
    (r.1, some r.2)
  else (st, none)

/-- A fresh store: the constructor's state after `initializeChain` has
seeded the Genesis Block at index 0. -/
def freshStore (hashFn : Nat → String → Option String → String → String)
    (selfCheck : Block → Bool) (nowMs : Nat) : Blockchain :=
  (initializeChain hashFn selfCheck nowMs newBlockchain).1

/-- Sequential `_addBlock` calls, threading the store state; each input is
the clock reading and the body for one append, and the per-call results are
collected in order. -/
def runAppends (hashFn : Nat → String → Option String → String → String)
    (selfCheck : Block → Bool) :
    Blockchain → List (Nat × String) → Blockchain × List (Except String Block)
  | st, [] => (st, [])
  | st, (t, b) :: rest =>
      let r1 := _addBlock hashFn selfCheck t st b
      let r2 := runAppends hashFn selfCheck r1.1 rest
      (r2.1, r1.2 :: r2.2)

/-- Whether an `Except` result is a resolution. -/
def exceptOk {α : Type} : Except String α → Bool
  | .ok _ => true
  | .error _ => false

/-- Embedding of `submitStar` (lines 124–154), parametrised by the external
signature-verification primitive `verify` (`bitcoinMessage.verify`) and the
body encoding `encodeBody` of the absent Block constructor for
`\x7b"owner": address, "star": star\x7d`.  The code reads the clock twice —
once for the freshness check (line 129, `nowMs`) and once inside
`_addBlock` (line 65, `nowMs2`).  The freshness check compares
`currentTime - messageTime >= 300` with JavaScript NaN semantics; on
rejection the store is untouched. -/
def submitStar (hashFn : Nat → String → Option String → String → String)
    (selfCheck : Block → Bool) (verify : String → String → String → Bool)
    (encodeBody : String → String → String) (nowMs nowMs2 : Nat)
    (st : Blockchain) (address message signature star : String) :
    Blockchain × Except String Block :=
  let messageTime := jsParseIntOpt ((jsSplitColon message).get? 1)
  let currentTime := jsParseInt (jsSecondsString nowMs)
  let maxElapsedTime : Int := 60 * 5
  if jsGeNaN currentTime messageTime maxElapsedTime then
    (st, .error "5 minute validation time has passed")
  else if ! verify message address signature then
    (st, .error "Verification is invalid")
  else
    _addBlock hashFn selfCheck nowMs2 st (encodeBody address star)

/-- Outcome of the promise returned by `getStarsByWalletAddress`:
resolved, rejected, or never settled.  The executor passed to
`new Promise` is an `async` function with no `try`/`catch` and no `reject`
call; when an `await` inside it throws, the returned promise of the executor
rejects unobserved and the outer promise is never settled — `unsettled`
records the error lost to that unhandled rejection. -/
inductive PromiseOutcome (α : Type) where
  | resolved (a : α)
  | rejected (e : String)
  | unsettled (e : String)
deriving DecidableEq

/-- The loop of `getStarsByWalletAddress` (lines 202–208) over the blocks
after the Genesis Block: await each block's decode, keep the bodies whose
`owner` equals the address, stop at the first decode failure. -/
def starsLoop (getBData : Block → Except String BData) (address : String) :
    List Block → Except String (List BData)
  | [] => .ok []
  | b :: rest =>
      match getBData b with
      | .error e => .error e
      | .ok d =>
          match starsLoop getBData address rest with
          | .error e => .error e
          | .ok ds => .ok (if d.owner = address then d :: ds else ds)

/-- Embedding of `getStarsByWalletAddress` (lines 197–212), parametrised by
the external decode capability `getBData` (`block.getBData()`, defined in
the absent `block.js`).  The loop starts at index 1, so the Genesis Block
is never consulted.  A decode failure throws inside the async executor:
the promise is never settled (see `PromiseOutcome`). -/
def getStarsByWalletAddress (getBData : Block → Except String BData)
    (st : Blockchain) (address : String) : PromiseOutcome (List BData) :=
  match starsLoop getBData address (st.chain.drop 1) with
  | .ok stars => .resolved stars
  | .error e => .unsettled e

/-! ### Spec-side predicates and descriptions -/

/-- The error list the spec describes for `validateChain`: for each `i` from
`0` to `length - 2`, index `i` once when the self-check of `block[i]` fails and
once more when `block[i].hash` differs from `block[i+1].previousBlockHash`,
in loop order and without deduplication. -/
def specErrorLog (selfCheck : Block → Bool) (chain : List Block) : List Nat :=
  (List.range (chain.length - 1)).flatMap fun i =>
    (if selfCheck (chain.getD i default) then [] else [i]) ++
    (if some ((chain.getD i default).hash) = (chain.getD (i + 1) default).previousBlockHash
      then [] else [i])

/-- Every adjacent pair of stored blocks is hash-linked:
`block[i].hash == block[i+1].previousBlockHash`. -/
def ChainLinks (chain : List Block) : Prop :=
  ∀ i, i < chain.length - 1 →
    (chain.getD (i + 1) default).previousBlockHash = some ((chain.getD i default).hash)

/-- Every stored block's `height` equals its index. -/
def ChainHeights (chain : List Block) : Prop :=
  ∀ i, i < chain.length → (chain.getD i default).height = i

/-- The store is well formed: the `height` field mirrors `length - 1`, the
chain is hash-linked, and heights equal indices. -/
def StoreWF (st : Blockchain) : Prop :=
  st.height = (st.chain.length : Int) - 1 ∧ ChainLinks st.chain ∧ ChainHeights st.chain

/-- The decoded bodies `getStarsByWalletAddress` is specified to return:
the decode of every post-genesis block whose decoded owner is the queried
address, in chain (ascending height) order. -/
def specStars (getBData : Block → Except String BData) (chain : List Block)
    (address : String) : List BData :=
  (chain.drop 1).filterMap fun b =>
    match getBData b with
    | .ok d => if d.owner = address then some d else none
    | .error _ => none

/-! ### Concrete sample data for witnesses and counterexamples -/

/-- A concrete stand-in for the external hash primitive. -/
def wH : Nat → String → Option String → String → String := fun _ _ _ _ => "h"

/-- A concrete self-check that always passes. -/
def wSelfT : Block → Bool := fun _ => true

/-- A concrete self-check that always fails. -/
def wSelfF : Block → Bool := fun _ => false

/-- A concrete self-check that fails exactly on blocks of height 1. -/
def wSelfH1 : Block → Bool := fun b => ! (b.height == 1)

/-- A concrete signature verifier that always refuses. -/
def wVerifyF : String → String → String → Bool := fun _ _ _ => false

/-- A concrete body encoding for the external Block constructor. -/
def wEnc : String → String → String := fun _ _ => "bd"

/-- A concrete freshly initialized store (genesis only). -/
def stG : Blockchain := freshStore wH wSelfT 500

/-- A concrete two-block store: genesis plus one appended block. -/
def stW2 : Blockchain := (_addBlock wH wSelfT 1000 stG "b1").1

/-- A concrete three-block store. -/
def stW3 : Blockchain := (_addBlock wH wSelfT 2000 stW2 "b2").1

/-- A concrete decoder that succeeds on every block, attributing blocks of
height 1 to owner "A" and the rest to owner "B". -/
def gOk : Block → Except String BData :=
  fun b => .ok ⟨if b.height == 1 then "A" else "B", b.body⟩

/-- A concrete decoder that fails on every block above the Genesis Block. -/
def gBad : Block → Except String BData :=
  fun b => if b.height == 0 then .ok ⟨"A", "s"⟩ else .error "boom"

/-! ### Decimal rendering lemmas (for the stored `time` field) -/

theorem revDigitsAux_fuel (f1 : Nat) : ∀ n f2, n < f1 → n < f2 →
    revDigitsAux f1 n = revDigitsAux f2 n := by
  induction f1 with
  | zero => intro n f2 h1 _; omega
  | succ f ih =>
      intro n f2 h1 h2
      cases f2 with
      | zero => omega
      | succ g =>
          simp only [revDigitsAux]
          by_cases hn : n < 10
          · simp [hn]
          · have hpos : 0 < n := by omega
            have hdiv : n / 10 < n := Nat.div_lt_self hpos (by omega)
            simp only [hn, if_false]
            have := ih (n / 10) g (by omega) (by omega)
            rw [this]

theorem revDigits_ge1000 (n : Nat) (h : 1000 ≤ n) :
    revDigits n = digitChar (n % 10) :: digitChar (n / 10 % 10) ::
      digitChar (n / 100 % 10) :: revDigits (n / 1000) := by
  have h10 : ¬ n < 10 := by omega
  have hq1 : 100 ≤ n / 10 := by
    have := Nat.div_le_div_right (c := 10) h
    simpa using this
  have hq1n : ¬ n / 10 < 10 := by omega
  have hq2 : 10 ≤ n / 100 := by
    have := Nat.div_le_div_right (c := 100) h
    simpa using this
  have hq2n : ¬ n / 100 < 10 := by omega
  have e1 : n / 10 / 10 = n / 100 := by
    rw [Nat.div_div_eq_div_mul]
  have e2 : n / 100 / 10 = n / 1000 := by
    rw [Nat.div_div_eq_div_mul]
  show revDigitsAux (n + 1) n = _
  rw [show revDigitsAux (n + 1) n = digitChar (n % 10) :: revDigitsAux n (n / 10) by
        simp [revDigitsAux, h10]]
  have d1 : n / 10 < n := Nat.div_lt_self (by omega) (by omega)
  rw [revDigitsAux_fuel n (n / 10) (n / 10 + 1) d1 (by omega)]
  rw [show revDigitsAux (n / 10 + 1) (n / 10)
        = digitChar (n / 10 % 10) :: revDigitsAux (n / 10) (n / 10 / 10) by
        simp [revDigitsAux, hq1n]]
  rw [e1]
  have d2 : n / 100 < n / 10 := by
    have := Nat.div_lt_self (show 0 < n / 10 by omega) (show 1 < 10 by omega)
    omega
  rw [revDigitsAux_fuel (n / 10) (n / 100) (n / 100 + 1) d2 (by omega)]
  rw [show revDigitsAux (n / 100 + 1) (n / 100)
        = digitChar (n / 100 % 10) :: revDigitsAux (n / 100) (n / 100 / 10) by
        simp [revDigitsAux, hq2n]]
  rw [e2]
  have d3 : n / 1000 < n / 100 := by
    have := Nat.div_lt_self (show 0 < n / 100 by omega) (show 1 < 10 by omega)
    omega
  rw [revDigitsAux_fuel (n / 100) (n / 1000) (n / 1000 + 1) d3 (by omega)]
  rfl

theorem reverse_take_sub {α : Type} (l : List α) (k : Nat) :
    l.reverse.take (l.length - k) = (l.drop k).reverse := by
  have h1 : l.reverse = (l.drop k).reverse ++ (l.take k).reverse := by
    rw [← List.reverse_append, List.take_append_drop]
  rw [h1]
  exact List.take_left' (by simp)

theorem jsSecondsString_div (nowMs : Nat) (h : 1000 ≤ nowMs) :
    jsSecondsString nowMs = jsNumToString (nowMs / 1000) := by
  show jsSliceDropLast3 (String.mk (revDigits nowMs).reverse) = _
  show String.mk (((revDigits nowMs).reverse).take ((revDigits nowMs).reverse.length - 3)) = _
  rw [List.length_reverse, reverse_take_sub]
  rw [revDigits_ge1000 nowMs h]
  rfl

/-! ### List indexing helpers -/

theorem getD_append_last {α : Type} [Inhabited α] (l : List α) (b : α) :
    (l ++ [b]).getD l.length default = b := by
  rw [List.getD_append_right l [b] default l.length (Nat.le_refl _)]
  simp [List.getD]

theorem foldl_append_flatMap (f : Nat → List Nat) (r : List Nat) : ∀ acc : List Nat,
    r.foldl (fun log i => log ++ f i) acc = acc ++ r.flatMap f := by
  induction r with
  | nil => intro acc; simp
  | cons x xs ih =>
      intro acc
      simp only [List.foldl_cons, List.flatMap_cons, ih, List.append_assoc]

/-! ### validateChain characterization -/

theorem report_of_log (L : List Nat) :
    (if L.length > 0 then ValidationReport.invalid L.length L else .valid)
      = if L = [] then .valid else .invalid L.length L := by
  by_cases h : L = []
  · simp [h]
  · simp [h, List.length_pos.mpr h]

theorem validateChain_eq (selfCheck : Block → Bool) (chain : List Block) :
    validateChain selfCheck chain =
      if specErrorLog selfCheck chain = [] then .valid
      else .invalid (specErrorLog selfCheck chain).length (specErrorLog selfCheck chain) := by
  unfold validateChain specErrorLog
  have hbody : (fun (log : List Nat) (i : Nat) =>
      let log1 := if selfCheck (chain.getD i default) then log else log ++ [i]
      if some ((chain.getD i default).hash) = (chain.getD (i + 1) default).previousBlockHash
        then log1 else log1 ++ [i]) =
      fun (log : List Nat) (i : Nat) => log ++
        ((if selfCheck (chain.getD i default) then [] else [i]) ++
         (if some ((chain.getD i default).hash) = (chain.getD (i + 1) default).previousBlockHash
           then [] else [i])) := by
    funext log i
    split_ifs <;> simp
  rw [hbody, foldl_append_flatMap]
  simp only [List.nil_append]
  exact report_of_log _

/-! ### Chain invariants -/

theorem addBlock_state (hashFn : Nat → String → Option String → String → String)
    (selfCheck : Block → Bool) (nowMs : Nat) (st : Blockchain) (body : String) :
    (_addBlock hashFn selfCheck nowMs st body).1 =
      ⟨st.chain ++ [mkBlock hashFn nowMs st body],
        ((st.chain ++ [mkBlock hashFn nowMs st body]).length : Int) - 1⟩ := by
  unfold _addBlock
  cases h : validateChain selfCheck (st.chain ++ [mkBlock hashFn nowMs st body]) <;>
    simp only [h]

theorem mkBlock_prev_of_ne_nil (hashFn : Nat → String → Option String → String → String)
    (nowMs : Nat) (st : Blockchain) (body : String) (h : 0 < st.chain.length) :
    (mkBlock hashFn nowMs st body).previousBlockHash =
      some ((st.chain.getD (st.chain.length - 1) default).hash) := by
  simp [mkBlock, h]

theorem links_append (hashFn : Nat → String → Option String → String → String)
    (nowMs : Nat) (st : Blockchain) (body : String) (h : ChainLinks st.chain) :
    ChainLinks (st.chain ++ [mkBlock hashFn nowMs st body]) := by
  intro i hi
  simp only [List.length_append, List.length_cons, List.length_nil] at hi
  have hi2 : i < st.chain.length := by omega
  by_cases hlt : i + 1 < st.chain.length
  · rw [List.getD_append _ _ _ _ hlt, List.getD_append _ _ _ _ hi2]
    exact h i (by omega)
  · have hin : i + 1 = st.chain.length := by omega
    rw [show (st.chain ++ [mkBlock hashFn nowMs st body]).getD (i + 1) default
          = mkBlock hashFn nowMs st body by rw [hin]; exact getD_append_last _ _]
    rw [List.getD_append _ _ _ _ hi2]
    have hieq : i = st.chain.length - 1 := by omega
    rw [mkBlock_prev_of_ne_nil hashFn nowMs st body (by omega), hieq]

theorem heights_append (hashFn : Nat → String → Option String → String → String)
    (nowMs : Nat) (st : Blockchain) (body : String) (h : ChainHeights st.chain) :
    ChainHeights (st.chain ++ [mkBlock hashFn nowMs st body]) := by
  intro i hi
  simp only [List.length_append, List.length_cons, List.length_nil] at hi
  by_cases hlt : i < st.chain.length
  · rw [List.getD_append _ _ _ _ hlt]
    exact h i hlt
  · have hin : i = st.chain.length := by omega
    rw [hin, getD_append_last]
    rfl

theorem addBlock_wf (hashFn : Nat → String → Option String → String → String)
    (selfCheck : Block → Bool) (nowMs : Nat) (st : Blockchain) (body : String)
    (h : StoreWF st) :
    StoreWF (_addBlock hashFn selfCheck nowMs st body).1 ∧
      (_addBlock hashFn selfCheck nowMs st body).1.chain.length = st.chain.length + 1 := by
  rw [addBlock_state]
  refine ⟨⟨rfl, links_append hashFn nowMs st body h.2.1,
    heights_append hashFn nowMs st body h.2.2⟩, by simp⟩

theorem runAppends_wf (hashFn : Nat → String → Option String → String → String)
    (selfCheck : Block → Bool) (inputs : List (Nat × String)) : ∀ st : Blockchain,
    StoreWF st →
    StoreWF (runAppends hashFn selfCheck st inputs).1 ∧
      (runAppends hashFn selfCheck st inputs).1.chain.length
        = st.chain.length + inputs.length := by
  induction inputs with
  | nil => intro st h; exact ⟨h, by simp [runAppends]⟩
  | cons p rest ih =>
      intro st h
      obtain ⟨t, b⟩ := p
      have h1 := addBlock_wf hashFn selfCheck t st b h
      have h2 := ih (_addBlock hashFn selfCheck t st b).1 h1.1
      refine ⟨h2.1, ?_⟩
      show (runAppends hashFn selfCheck (_addBlock hashFn selfCheck t st b).1 rest).1.chain.length
        = st.chain.length + (rest.length + 1)
      rw [h2.2, h1.2]
      omega

theorem freshStore_eq (hashFn : Nat → String → Option String → String → String)
    (selfCheck : Block → Bool) (nowMs : Nat) :
    freshStore hashFn selfCheck nowMs
      = (_addBlock hashFn selfCheck nowMs newBlockchain genesisBody).1 := rfl

theorem freshStore_wf (hashFn : Nat → String → Option String → String → String)
    (selfCheck : Block → Bool) (nowMs : Nat) :
    StoreWF (freshStore hashFn selfCheck nowMs) ∧
      (freshStore hashFn selfCheck nowMs).chain.length = 1 := by
  rw [freshStore_eq, addBlock_state]
  refine ⟨⟨rfl, ?_, ?_⟩, by simp [newBlockchain]⟩
  · intro i hi
    simp [newBlockchain] at hi
  · intro i hi
    simp [newBlockchain] at hi
    have h0 : i = 0 := by omega
    rw [h0]
    rfl

/-! ### _addBlock result shape and starsLoop lemmas -/

theorem addBlock_snd_valid (hashFn : Nat → String → Option String → String → String)
    (selfCheck : Block → Bool) (nowMs : Nat) (st : Blockchain) (body : String)
    (h : validateChain selfCheck (st.chain ++ [mkBlock hashFn nowMs st body]) = .valid) :
    (_addBlock hashFn selfCheck nowMs st body).2 = .ok (mkBlock hashFn nowMs st body) := by
  unfold _addBlock
  simp only [h]

theorem addBlock_snd_invalid (hashFn : Nat → String → Option String → String → String)
    (selfCheck : Block → Bool) (nowMs : Nat) (st : Blockchain) (body : String)
    (h : validateChain selfCheck (st.chain ++ [mkBlock hashFn nowMs st body]) ≠ .valid) :
    (_addBlock hashFn selfCheck nowMs st body).2 = .error "Blockchain is not valid!" := by
  unfold _addBlock
  cases hv : validateChain selfCheck (st.chain ++ [mkBlock hashFn nowMs st body]) with
  | valid => exact absurd hv h
  | invalid n L => simp only [hv]

theorem addBlock_snd_cases (hashFn : Nat → String → Option String → String → String)
    (selfCheck : Block → Bool) (nowMs : Nat) (st : Blockchain) (body : String) :
    (_addBlock hashFn selfCheck nowMs st body).2 = .ok (mkBlock hashFn nowMs st body)
    ∨ (_addBlock hashFn selfCheck nowMs st body).2 = .error "Blockchain is not valid!" := by
  by_cases h : validateChain selfCheck (st.chain ++ [mkBlock hashFn nowMs st body]) = .valid
  · exact Or.inl (addBlock_snd_valid hashFn selfCheck nowMs st body h)
  · exact Or.inr (addBlock_snd_invalid hashFn selfCheck nowMs st body h)

theorem starsLoop_ok (getBData : Block → Except String BData) (address : String) :
    ∀ l : List Block, (∀ b ∈ l, exceptOk (getBData b) = true) →
    starsLoop getBData address l = .ok (l.filterMap fun b =>
      match getBData b with
      | .ok d => if d.owner = address then some d else none
      | .error _ => none) := by
  intro l
  induction l with
  | nil => intro _; rfl
  | cons b rest ih =>
      intro h
      have hb := h b (List.mem_cons_self b rest)
      cases hgb : getBData b with
      | error e => rw [hgb] at hb; simp [exceptOk] at hb
      | ok d =>
          have hrest := ih fun x hx => h x (List.mem_cons_of_mem b hx)
          simp only [starsLoop, hgb, hrest, List.filterMap_cons]
          by_cases hd : d.owner = address <;> simp [hd]

theorem starsLoop_error (getBData : Block → Except String BData) (address : String) :
    ∀ l : List Block, (∃ b ∈ l, exceptOk (getBData b) = false) →
    ∃ e, starsLoop getBData address l = .error e := by
  intro l
  induction l with
  | nil => rintro ⟨b, hb, _⟩; simp at hb
  | cons b rest ih =>
      rintro ⟨x, hx, hxf⟩
      cases hgb : getBData b with
      | error e => exact ⟨e, by simp [starsLoop, hgb]⟩
      | ok d =>
          have hxr : x ∈ rest := by
            rcases List.mem_cons.mp hx with h1 | h1
            · rw [h1, hgb] at hxf; simp [exceptOk] at hxf
            · exact h1
          obtain ⟨e, he⟩ := ih ⟨x, hxr, hxf⟩
          refine ⟨e, ?_⟩
          simp only [starsLoop, hgb, he]

/-! ### Claim theorems -/

theorem specErrorLog_eq_nil_iff (selfCheck : Block → Bool) (chain : List Block) :
    specErrorLog selfCheck chain = [] ↔
      ∀ i, i < chain.length - 1 →
        selfCheck (chain.getD i default) = true ∧
        some ((chain.getD i default).hash)
          = (chain.getD (i + 1) default).previousBlockHash := by
  unfold specErrorLog
  rw [List.flatMap_eq_nil_iff]
  constructor
  · intro h i hi
    have hstep := h i (List.mem_range.mpr hi)
    constructor
    · by_contra h1
      rw [if_neg h1] at hstep
      simp at hstep
    · by_contra h2
      rw [if_neg h2] at hstep
      simp at hstep
  · intro h i hi
    have hstep := h i (List.mem_range.mp hi)
    rw [if_pos hstep.1, if_pos hstep.2]
    rfl

/-- C1: for every sequence of successful sequential appends on a fresh store
(genesis at index 0), the final height equals the number of appends, the
chain length is that plus one, every adjacent pair is hash-linked
(`block[i].hash == block[i+1].previousBlockHash`), and every block's height
equals its index. -/
theorem chain_append_invariants (hashFn : Nat → String → Option String → String → String)
    (selfCheck : Block → Bool) (t0 : Nat) (inputs : List (Nat × String))
    (hok : ∀ r ∈ (runAppends hashFn selfCheck (freshStore hashFn selfCheck t0) inputs).2,
      exceptOk r = true) :
    (runAppends hashFn selfCheck (freshStore hashFn selfCheck t0) inputs).1.height
        = (inputs.length : Int)
    ∧ (runAppends hashFn selfCheck (freshStore hashFn selfCheck t0) inputs).1.chain.length
        = inputs.length + 1
    ∧ ChainLinks (runAppends hashFn selfCheck (freshStore hashFn selfCheck t0) inputs).1.chain
    ∧ ChainHeights (runAppends hashFn selfCheck
        (freshStore hashFn selfCheck t0) inputs).1.chain := by
  have hfw := freshStore_wf hashFn selfCheck t0
  have hr := runAppends_wf hashFn selfCheck inputs (freshStore hashFn selfCheck t0) hfw.1
  have hlen : (runAppends hashFn selfCheck (freshStore hashFn selfCheck t0) inputs).1.chain.length
      = inputs.length + 1 := by
    rw [hr.2, hfw.2]
    omega
  refine ⟨?_, hlen, hr.1.2.1, hr.1.2.2⟩
  rw [hr.1.1, hlen]
  push_cast
  ring

/-- C1 witness: two successful appends on a fresh store leave height 2. -/
theorem chain_append_invariants_witness :
    (runAppends wH wSelfT (freshStore wH wSelfT 500) [(1000, "a"), (2000, "b")]).1.height
      = (2 : Int) :=
  (chain_append_invariants wH wSelfT 500 [(1000, "a"), (2000, "b")] (by decide)).1

/-- C2: `validateChain` reports `Valid` exactly when, for every `i` up to
`length - 2`, block `i` passes its self-check and is hash-linked to block
`i + 1`; an `Invalid` report carries the full undeduplicated loop-order
index list together with its length; and the report never consults the
self-check of the last block (it only depends on the self-checks of blocks
`0 .. length - 2`). -/
theorem validateChain_report (selfCheck : Block → Bool) (chain : List Block) :
    (validateChain selfCheck chain = .valid ↔
      ∀ i, i < chain.length - 1 →
        selfCheck (chain.getD i default) = true ∧
        some ((chain.getD i default).hash)
          = (chain.getD (i + 1) default).previousBlockHash)
    ∧ (∀ n L, validateChain selfCheck chain = .invalid n L →
        n = L.length ∧ L = specErrorLog selfCheck chain)
    ∧ (specErrorLog selfCheck chain ≠ [] →
        validateChain selfCheck chain
          = .invalid (specErrorLog selfCheck chain).length (specErrorLog selfCheck chain))
    ∧ (∀ selfCheck2 : Block → Bool,
        (∀ i, i < chain.length - 1 →
          selfCheck (chain.getD i default) = selfCheck2 (chain.getD i default)) →
        validateChain selfCheck chain = validateChain selfCheck2 chain) := by
  refine ⟨?_, ?_, ?_, ?_⟩
  · rw [validateChain_eq]
    by_cases he : specErrorLog selfCheck chain = []
    · rw [if_pos he]
      constructor
      · intro _
        exact (specErrorLog_eq_nil_iff selfCheck chain).mp he
      · intro _
        rfl
    · rw [if_neg he]
      constructor
      · intro h
        exact absurd h (by simp)
      · intro h
        exact absurd ((specErrorLog_eq_nil_iff selfCheck chain).mpr h) he
  · intro n L h
    rw [validateChain_eq] at h
    by_cases he : specErrorLog selfCheck chain = []
    · rw [if_pos he] at h
      exact absurd h (by simp)
    · rw [if_neg he] at h
      injection h with h1 h2
      constructor
      · rw [← h1, h2]
      · exact h2.symm
  · intro he
    rw [validateChain_eq, if_neg he]
  · intro selfCheck2 hagree
    have hlog : specErrorLog selfCheck chain = specErrorLog selfCheck2 chain := by
      unfold specErrorLog
      apply List.flatMap_congr
      intro i hi
      rw [hagree i (List.mem_range.mp hi)]
    rw [validateChain_eq, validateChain_eq, hlog]

/-- C2 witness: on a concrete two-block chain the report is unchanged when
the self-check is replaced by one that differs only on the last block. -/
theorem validateChain_report_witness :
    validateChain wSelfT stW2.chain = validateChain wSelfH1 stW2.chain :=
  (validateChain_report wSelfT stW2.chain).2.2.2 wSelfH1 (by decide)

/-- C3: when post-append validation of the extended chain is not `Valid`,
`_addBlock` rejects with `Error("Blockchain is not valid!")`, yet the
appended block stays in the chain and the height is that of the extended
sequence — the append is not rolled back. -/
theorem addBlock_invalid_no_rollback (hashFn : Nat → String → Option String → String → String)
    (selfCheck : Block → Bool) (nowMs : Nat) (st : Blockchain) (body : String)
    (h : validateChain selfCheck (st.chain ++ [mkBlock hashFn nowMs st body]) ≠ .valid) :
    (_addBlock hashFn selfCheck nowMs st body).2 = .error "Blockchain is not valid!"
    ∧ (_addBlock hashFn selfCheck nowMs st body).1.chain
        = st.chain ++ [mkBlock hashFn nowMs st body]
    ∧ (_addBlock hashFn selfCheck nowMs st body).1.height = (st.chain.length : Int) := by
  refine ⟨addBlock_snd_invalid hashFn selfCheck nowMs st body h, ?_, ?_⟩
  · rw [addBlock_state]
  · rw [addBlock_state]
    simp only [List.length_append, List.length_cons, List.length_nil]
    push_cast
    ring

/-- C3 witness: with a failing self-check the append on a concrete store
rejects with the chain-integrity error (and the block stays, per C3). -/
theorem addBlock_invalid_no_rollback_witness :
    (_addBlock wH wSelfF 1000 stG "b1").2 = .error "Blockchain is not valid!" :=
  (addBlock_invalid_no_rollback wH wSelfF 1000 stG "b1" (by decide)).1

/-- C4: the block `_addBlock` stores carries
`hash = hashFn (height, time, previousBlockHash, body)` — the hash is a
function of exactly the four other fields, so it cannot depend on the
`hash` field itself. -/
theorem appended_block_hash (hashFn : Nat → String → Option String → String → String)
    (selfCheck : Block → Bool) (nowMs : Nat) (st : Blockchain) (body : String) :
    (_addBlock hashFn selfCheck nowMs st body).1.chain
        = st.chain ++ [mkBlock hashFn nowMs st body]
    ∧ (mkBlock hashFn nowMs st body).hash
        = hashFn (mkBlock hashFn nowMs st body).height
            (mkBlock hashFn nowMs st body).time
            (mkBlock hashFn nowMs st body).previousBlockHash
            (mkBlock hashFn nowMs st body).body :=
  ⟨by rw [addBlock_state], rfl⟩

/-- C5: with a parsed embedded timestamp `t` (second colon-delimited field)
and parsed current time `ct`, `submitStar` rejects with the
challenge-expired error exactly when `ct - t >= 300` (the boundary value
300 counts as expired, and the store is untouched), and when `ct - t < 300`
the freshness check passes and the call proceeds to signature
verification. -/
theorem submitStar_freshness_boundary (hashFn : Nat → String → Option String → String → String)
    (selfCheck : Block → Bool) (verify : String → String → String → Bool)
    (encodeBody : String → String → String) (nowMs nowMs2 : Nat) (st : Blockchain)
    (address message signature star : String) (t ct : Int)
    (hmsg : jsParseIntOpt ((jsSplitColon message).get? 1) = some t)
    (hct : jsParseInt (jsSecondsString nowMs) = some ct) :
    (300 ≤ ct - t →
      submitStar hashFn selfCheck verify encodeBody nowMs nowMs2 st address message signature star
        = (st, .error "5 minute validation time has passed"))
    ∧ (ct - t < 300 →
      submitStar hashFn selfCheck verify encodeBody nowMs nowMs2 st address message signature star
        = if verify message address signature
            then _addBlock hashFn selfCheck nowMs2 st (encodeBody address star)
            else (st, .error "Verification is invalid")) := by
  constructor
  · intro hexp
    simp only [submitStar]
    rw [hmsg, hct]
    have hgate : jsGeNaN (some ct) (some t) (60 * 5) = true := by
      simp only [jsGeNaN, decide_eq_true_eq]
      omega
    rw [hgate]
    simp
  · intro hfresh
    simp only [submitStar]
    rw [hmsg, hct]
    have hgate : jsGeNaN (some ct) (some t) (60 * 5) = false := by
      simp only [jsGeNaN, decide_eq_false_iff_not]
      omega
    rw [hgate]
    cases hv : verify message address signature <;> simp [hv]

/-- C5 witness: an embedded timestamp 1000 seconds old (≥ 300) is rejected
as expired. -/
theorem submitStar_freshness_boundary_witness :
    submitStar wH wSelfT wVerifyF wEnc 1000000 1000000 stG "a" "a:0:starRegistry" "sig" "star"
      = (stG, .error "5 minute validation time has passed") :=
  (submitStar_freshness_boundary wH wSelfT wVerifyF wEnc 1000000 1000000 stG
    "a" "a:0:starRegistry" "sig" "star" 0 1000 (by decide) (by decide)).1 (by decide)

/-- C6 counterexample: with a verifier that always returns false and a stale
challenge message (elapsed 900 ≥ 300), `submitStar` rejects with the
challenge-expired error, not the signature error — so the signature-invalid
rejection is not independent of freshness. -/
theorem submitStar_stale_bad_signature_cex :
    submitStar wH wSelfT wVerifyF wEnc 2000000 2000000 stG
        "addr" "addr:1100:starRegistry" "sig" "star"
      = (stG, .error "5 minute validation time has passed")
    ∧ submitStar wH wSelfT wVerifyF wEnc 2000000 2000000 stG
        "addr" "addr:1100:starRegistry" "sig" "star"
      ≠ (stG, .error "Verification is invalid") := by
  constructor
  · decide
  · decide

/-- C6 amended: whenever the freshness gate does not fire (elapsed < 300, or
a NaN operand) and the signature-verification primitive returns false,
`submitStar` rejects with the signature-invalid error and leaves the store
untouched. -/
theorem submitStar_signature_invalid_when_fresh
    (hashFn : Nat → String → Option String → String → String)
    (selfCheck : Block → Bool) (verify : String → String → String → Bool)
    (encodeBody : String → String → String) (nowMs nowMs2 : Nat) (st : Blockchain)
    (address message signature star : String)
    (hfresh : jsGeNaN (jsParseInt (jsSecondsString nowMs))
        (jsParseIntOpt ((jsSplitColon message).get? 1)) (60 * 5) = false)
    (hver : verify message address signature = false) :
    submitStar hashFn selfCheck verify encodeBody nowMs nowMs2 st address message signature star
      = (st, .error "Verification is invalid") := by
  simp only [submitStar]
  rw [hfresh, hver]
  simp

/-- C6 amended witness: a fresh message (elapsed 1 < 300) with a refusing
verifier is rejected as signature-invalid. -/
theorem submitStar_signature_invalid_when_fresh_witness :
    submitStar wH wSelfT wVerifyF wEnc 1000000 1000000 stG
        "a" "a:999:starRegistry" "sig" "star"
      = (stG, .error "Verification is invalid") :=
  submitStar_signature_invalid_when_fresh wH wSelfT wVerifyF wEnc 1000000 1000000 stG
    "a" "a:999:starRegistry" "sig" "star" (by decide) (by decide)

/-- C7: when every post-genesis block decodes, `getStarsByWalletAddress`
resolves with exactly the decoded bodies whose owner equals the queried
address, in chain order (ascending height order for a well-formed chain),
taken from `chain.drop 1` — the Genesis Block at index 0 is excluded no
matter what it would decode to. -/
theorem getStars_owner_filter (getBData : Block → Except String BData)
    (st : Blockchain) (address : String)
    (h : ∀ b ∈ st.chain.drop 1, exceptOk (getBData b) = true) :
    getStarsByWalletAddress getBData st address
      = .resolved (specStars getBData st.chain address) := by
  unfold getStarsByWalletAddress specStars
  rw [starsLoop_ok getBData address (st.chain.drop 1) h]

/-- C7 witness: on a concrete three-block store whose decoder attributes
only the height-1 block to owner "A", the query resolves with that
filtered list. -/
theorem getStars_owner_filter_witness :
    getStarsByWalletAddress gOk stW3 "A" = .resolved (specStars gOk stW3.chain "A") :=
  getStars_owner_filter gOk stW3 "A" (by decide)

/-- C8 counterexample: when decoding a post-genesis block fails, the promise
returned by `getStarsByWalletAddress` is never settled — it does not reject
with the decode error, contradicting the claim that the call fails with the
propagated error. -/
theorem getStars_decode_failure_cex :
    getStarsByWalletAddress gBad stW2 "A" = .unsettled "boom"
    ∧ getStarsByWalletAddress gBad stW2 "A" ≠ .rejected "boom" := by
  constructor
  · decide
  · decide

/-- C8 amended: if decoding any post-genesis block fails, no partial results
are returned — the call neither resolves nor rejects; the decode error is
lost to an unhandled rejection and the promise never settles. -/
theorem getStars_decode_failure_unsettled (getBData : Block → Except String BData)
    (st : Blockchain) (address : String)
    (h : ∃ b ∈ st.chain.drop 1, exceptOk (getBData b) = false) :
    (∃ e, getStarsByWalletAddress getBData st address = .unsettled e)
    ∧ (∀ l, getStarsByWalletAddress getBData st address ≠ .resolved l)
    ∧ (∀ e2, getStarsByWalletAddress getBData st address ≠ .rejected e2) := by
  obtain ⟨e, he⟩ := starsLoop_error getBData address (st.chain.drop 1) h
  have hu : getStarsByWalletAddress getBData st address = .unsettled e := by
    unfold getStarsByWalletAddress
    rw [he]
  refine ⟨⟨e, hu⟩, ?_, ?_⟩
  · intro l hl
    rw [hu] at hl
    exact PromiseOutcome.noConfusion hl
  · intro e2 hl
    rw [hu] at hl
    exact PromiseOutcome.noConfusion hl

/-- C8 amended witness: the failing concrete query does not reject. -/
theorem getStars_decode_failure_unsettled_witness :
    getStarsByWalletAddress gBad stW2 "A" ≠ .rejected "boom" :=
  (getStars_decode_failure_unsettled gBad stW2 "A" (by decide)).2.2 "boom"

/-- C9 counterexample: at the concrete millisecond clock 1696000000123,
line 65 stores the JavaScript string "1696000000" — a string value, not an
integer — so the stored `time` field is not an integer Unix timestamp. -/
theorem storedTime_not_integer_cex :
    storedTimeJsValue 1696000000123 = JsValue.str "1696000000"
    ∧ (storedTimeJsValue 1696000000123).isNum = false := by
  constructor
  · decide
  · decide

/-- C9 amended: the stored `time` field is the decimal string of the
whole-second Unix timestamp — the millisecond clock rendered in decimal
with its last three digits dropped, which for any clock value of at least
1000 ms equals the decimal rendering of `nowMs / 1000` — assigned at the
moment of append, and it is a string, never a number. -/
theorem storedTime_seconds_string (hashFn : Nat → String → Option String → String → String)
    (nowMs : Nat) (st : Blockchain) (body : String) (h : 1000 ≤ nowMs) :
    (mkBlock hashFn nowMs st body).time = jsNumToString (nowMs / 1000)
    ∧ (storedTimeJsValue nowMs).isNum = false := by
  constructor
  · show jsSecondsString nowMs = _
    exact jsSecondsString_div nowMs h
  · rfl

/-- C9 amended witness: the block appended at clock 1696000000123 stores
time "1696000000", the decimal of the whole-second timestamp. -/
theorem storedTime_seconds_string_witness :
    (mkBlock wH 1696000000123 stG "b1").time = jsNumToString (1696000000123 / 1000) :=
  (storedTime_seconds_string wH 1696000000123 stG "b1" (by norm_num)).1

/-- C10: when the second colon-delimited field of the message does not parse
to a number (`parseInt` yields NaN), the freshness comparison is false, so
`submitStar` never rejects as expired and proceeds directly to signature
verification. -/
theorem submitStar_nan_timestamp (hashFn : Nat → String → Option String → String → String)
    (selfCheck : Block → Bool) (verify : String → String → String → Bool)
    (encodeBody : String → String → String) (nowMs nowMs2 : Nat) (st : Blockchain)
    (address message signature star : String)
    (h : jsParseIntOpt ((jsSplitColon message).get? 1) = none) :
    submitStar hashFn selfCheck verify encodeBody nowMs nowMs2 st address message signature star
      = (if verify message address signature
          then _addBlock hashFn selfCheck nowMs2 st (encodeBody address star)
          else (st, .error "Verification is invalid"))
    ∧ (submitStar hashFn selfCheck verify encodeBody nowMs nowMs2 st
          address message signature star).2
        ≠ .error "5 minute validation time has passed" := by
  have hgate : jsGeNaN (jsParseInt (jsSecondsString nowMs))
      (jsParseIntOpt ((jsSplitColon message).get? 1)) (60 * 5) = false := by
    rw [h]
    cases jsParseInt (jsSecondsString nowMs) <;> rfl
  have heq : submitStar hashFn selfCheck verify encodeBody nowMs nowMs2 st
      address message signature star
      = if verify message address signature
          then _addBlock hashFn selfCheck nowMs2 st (encodeBody address star)
          else (st, .error "Verification is invalid") := by
    simp only [submitStar]
    rw [hgate]
    cases hv : verify message address signature <;> simp [hv]
  refine ⟨heq, ?_⟩
  rw [heq]
  cases hv : verify message address signature
  · rw [if_neg (by decide : ¬ (false = true))]
    show Except.error "Verification is invalid"
      ≠ Except.error "5 minute validation time has passed"
    decide
  · rw [if_pos (rfl : true = true)]
    rcases addBlock_snd_cases hashFn selfCheck nowMs2 st (encodeBody address star) with hc | hc <;>
      rw [hc]
    · intro hcc
      exact Except.noConfusion hcc
    · decide

/-- C10 witness: a message with no colon (hence no parseable timestamp) is
not rejected as expired. -/
theorem submitStar_nan_timestamp_witness :
    (submitStar wH wSelfT wVerifyF wEnc 1000000 1000000 stG
        "a" "nocolon" "sig" "star").2
      ≠ .error "5 minute validation time has passed" :=
  (submitStar_nan_timestamp wH wSelfT wVerifyF wEnc 1000000 1000000 stG
    "a" "nocolon" "sig" "star" (by decide)).2
